import Mathlib

/-!
Verification of the pattern-rewriting core of the obsidian-utilities plugin
(src/main.ts): the editor-change line rewriter (escape pass, Jira
lookup-expansion pass, literal date pass), the file-rename rewriter, the date
formatter, and the asynchronous Jira-link expansion protocol.

Lines are modelled as `List Char`, the cursor as a character offset `Nat`.
The regex literals of the source are embedded as explicit pattern scanners
with JS word-boundary semantics.
-/

namespace Obsidian

/-- JS regex word-character class `\w`: ASCII letters, digits, underscore. -/
def isWordChar (c : Char) : Bool := c.isAlphanum || c == '_'

/-- A fixed-text pattern together with the word-boundary requirements the
source regexes impose on its left and right ends. -/
structure Pat where
  pat : List Char
  leftWB : Bool
  rightWB : Bool
deriving DecidableEq

/-- The slice of `line` starting at `i` equals `pat`. -/
def sliceEq (line : List Char) (i : Nat) (pat : List Char) : Bool :=
  (line.drop i).take pat.length == pat

/-- Left word-boundary test at position `i` (required only when `b`). -/
def leftOk (line : List Char) (i : Nat) (b : Bool) : Bool :=
  !b || i == 0 || !isWordChar (line.getD (i - 1) ' ')

/-- Right word-boundary test after `len` chars from `i` (required only when
`b`); positions past the end behave as a boundary, as in JS. -/
def rightOk (line : List Char) (i len : Nat) (b : Bool) : Bool :=
  !b || !isWordChar (line.getD (i + len) ' ')

/-- The pattern `p` matches `line` at position `i`. -/
def matchesAt (line : List Char) (i : Nat) (p : Pat) : Bool :=
  sliceEq line i p.pat && leftOk line i p.leftWB && rightOk line i p.pat.length p.rightWB

/-- Left-to-right, non-overlapping scan for all match positions, as
`String.prototype.matchAll` produces for a global regex.  Fuelled to make the
recursion structural. -/
def scanFrom (line : List Char) (p : Pat) : Nat → Nat → List Nat
  | 0, _ => []
  | fuel + 1, i =>
    if matchesAt line i p then i :: scanFrom line p fuel (i + p.pat.length)
    else if i < line.length then scanFrom line p fuel (i + 1)
    else []

/-- All match positions of `p` in `line`. -/
def scanMatches (line : List Char) (p : Pat) : List Nat :=
  scanFrom line p (line.length + 1) 0

/-- src/main.ts line 506-509: a match is valid when it is at offset 0 or not
immediately preceded by a backslash. -/
def validAt (line : List Char) (i : Nat) : Bool :=
  i == 0 || line.getD (i - 1) ' ' != '\\'

/-- The valid (non-escaped) match positions of `p` in `line`. -/
def validMatches (line : List Char) (p : Pat) : List Nat :=
  (scanMatches line p).filter (validAt line)

/-- `substring(0, s) + repl + substring(s + len)`. -/
def splice (line : List Char) (s len : Nat) (repl : List Char) : List Char :=
  line.take s ++ repl ++ line.drop (s + len)

/-- Replace, right-to-left, every listed occurrence (positions ascending) of a
`len`-character match by `repl`, exactly as the loop in src/main.ts
lines 517-534 splices the evolving line at the original offsets. -/
def applyRL (line : List Char) (len : Nat) (repl : List Char) : List Nat → List Char
  | [] => line
  | s :: rest => splice (applyRL line len repl rest) s len repl

/-- The cursor adjustment accumulated by the right-to-left loop of
src/main.ts lines 517-534: the match containing the cursor assigns
`matchStart + replLen - ch`; matches before the cursor add
`replLen - matchLen`.  The list is ascending, the head is processed last. -/
def cursorAdj (ch replLen patLen : Nat) : List Nat → Int
  | [] => 0
  | s :: rest =>
    if s ≤ ch ∧ ch ≤ s + patLen then (s : Int) + replLen - ch
    else if s < ch then cursorAdj ch replLen patLen rest + ((replLen : Int) - (patLen : Int))
    else cursorAdj ch replLen patLen rest

/-- Bare form of the BraceCall trigger, regex `/\{\{today\(\)\}\}/g`. -/
def braceCallPat : Pat := ⟨"\x7b\x7btoday()\x7d\x7d".toList, false, false⟩

/-- Bare form of the BareCall trigger, regex `/\btoday\(\)/g`. -/
def bareCallPat : Pat := ⟨"today()".toList, true, false⟩

/-- Bare form of the AtTag trigger, regex `/@today\b/g`. -/
def atTagPat : Pat := ⟨"@today".toList, false, true⟩

/-- Escaped BraceCall, regex `/\\(\{\{today\(\)\}\})/g`. -/
def escBracePat : Pat := ⟨'\\' :: braceCallPat.pat, false, false⟩

/-- Escaped BareCall, regex `/\\(today\(\))/g` (no word boundary). -/
def escBarePat : Pat := ⟨'\\' :: bareCallPat.pat, false, false⟩

/-- Escaped AtTag, regex `/\\(@today)\b/g`. -/
def escAtPat : Pat := ⟨'\\' :: atTagPat.pat, false, true⟩

/-- The escape-pattern table of src/main.ts lines 477-481, each with the bare
text that the backreference `$1` substitutes. -/
def escapePatterns : List (Pat × List Char) :=
  [(escBracePat, braceCallPat.pat), (escBarePat, bareCallPat.pat), (escAtPat, atTagPat.pat)]

/-- The date-pattern table of src/main.ts lines 496-500, in priority order. -/
def datePatterns : List Pat := [braceCallPat, bareCallPat, atTagPat]

/-- The k-th literal trigger in priority order. -/
def datePat (k : Fin 3) : Pat := datePatterns.getD k.val braceCallPat

/-- The k-th escape pattern in priority order. -/
def escPat (k : Fin 3) : Pat × List Char :=
  escapePatterns.getD k.val (escBracePat, braceCallPat.pat)

/-- src/main.ts lines 483-493: the first escape pattern that tests positive
has all its occurrences rewritten to the bare form (the regexes are global). -/
def escapeFirst (line : List Char) : List (Pat × List Char) → Option (List Char)
  | [] => none
  | (p, r) :: rest =>
    if (scanMatches line p).isEmpty then escapeFirst line rest
    else some (applyRL line p.pat.length r (scanMatches line p))

/-- src/main.ts lines 502-545: the first date pattern with a valid match has
all its valid occurrences replaced right-to-left; the cursor is recomputed
from the accumulated adjustment, clamped at 0. -/
def literalFirst (line : List Char) (ch : Nat) (today : List Char) :
    List Pat → Option (List Char × Nat)
  | [] => none
  | p :: rest =>
    let ms := scanMatches line p
    if ms.isEmpty then literalFirst line ch today rest
    else
      let valid := ms.filter (validAt line)
      if valid.isEmpty then literalFirst line ch today rest
      else
        some (applyRL line p.pat.length today valid,
          (max 0 ((ch : Int) + cursorAdj ch today.length p.pat.length valid)).toNat)

/-- Outcome of one editor-change event. -/
inductive EditResult where
  | jiraNoop
  | jiraExpand (term : List Char)
  | escapeEdit (newLine : List Char) (newCursor : Nat)
  | literalEdit (newLine : List Char) (newCursor : Nat)
  | noop
deriving DecidableEq

/-- The escape pass followed by the literal pass (src/main.ts lines 476-545).
The escape pass returns early with cursor `max(0, ch - 1)`. -/
def escapeOrLiteral (line : List Char) (ch : Nat) (today : List Char) : EditResult :=
  match escapeFirst line escapePatterns with
  | some nl => .escapeEdit nl (ch - 1)
  | none =>
    match literalFirst line ch today datePatterns with
    | some (nl, c) => .literalEdit nl c
    | none => .noop

/-- The opening text of the BracketLookup trigger. -/
def jiraHead : List Char := "[[JIRA:".toList

/-- Regex `/\[\[JIRA:([^\]]+)\]\]/` matched at position `i`: the head text,
then a maximal nonempty run of non-`]` characters, then `]]`.  Returns the
total match length. -/
def jiraMatchLen (line : List Char) (i : Nat) : Option Nat :=
  if sliceEq line i jiraHead then
    let payLen := ((line.drop (i + 7)).takeWhile (fun c => c != ']')).length
    if 1 ≤ payLen ∧ sliceEq line (i + 7 + payLen) "]]".toList then some (payLen + 9)
    else none
  else none

/-- Leftmost match of the BracketLookup regex, as `String.prototype.match`
finds it.  Fuelled scan over start positions. -/
def firstJiraFrom (line : List Char) : Nat → Nat → Option (Nat × Nat)
  | 0, _ => none
  | fuel + 1, i =>
    match jiraMatchLen line i with
    | some len => some (i, len)
    | none => if i < line.length then firstJiraFrom line fuel (i + 1) else none

/-- `(start, length)` of the first BracketLookup match of the line, if any. -/
def firstJiraMatch (line : List Char) : Option (Nat × Nat) :=
  firstJiraFrom line (line.length + 1) 0

/-- ASCII whitespace trimmed by `String.prototype.trim`. -/
def isJsSpace (c : Char) : Bool :=
  c == ' ' || c == '\t' || c == '\n' || c == '\r' || c == '\x0b' || c == '\x0c'

/-- `String.prototype.trim` on ASCII content. -/
def jsTrim (s : List Char) : List Char :=
  ((s.dropWhile isJsSpace).reverse.dropWhile isJsSpace).reverse

/-- Regex `/^[A-Z]+-\d+( - .*)?$/i`: an already-resolved ticket reference. -/
def isTicketForm (s : List Char) : Bool :=
  let letters := s.takeWhile Char.isAlpha
  if letters.isEmpty then false
  else
    match s.drop letters.length with
    | '-' :: rest =>
      let digits := rest.takeWhile Char.isDigit
      if digits.isEmpty then false
      else
        match rest.drop digits.length with
        | [] => true
        | ' ' :: '-' :: ' ' :: _ => true
        | _ => false
    | _ => false

/-- The searchTerm of a BracketLookup match at `(s, len)`: the trimmed
payload, i.e. the captured group `match[1].trim()`. -/
def jiraTerm (line : List Char) (s len : Nat) : List Char :=
  jsTrim ((line.drop (s + 7)).take (len - 9))

/-- src/main.ts lines 445-546, `handleEditorChange`, for one line and one
cursor offset.  `jiraEnabled` is whether a Jira client is configured; `today`
is the formatted current date the date patterns are replaced with.  The Jira
lookup pass runs first; it fires only when the cursor sits inside the first
BracketLookup match, the payload is not an already-resolved ticket reference,
and the character before the cursor is `]` or a space. -/
def handleEditorChange (jiraEnabled : Bool) (line : List Char) (ch : Nat)
    (today : List Char) : EditResult :=
  match (if jiraEnabled then firstJiraMatch line else none) with
  | some (s, len) =>
    if s ≤ ch ∧ ch ≤ s + len then
      let term := jiraTerm line s len
      if isTicketForm term then .jiraNoop
      else
        let lastChar : Option Char := if ch = 0 then none else line.get? (ch - 1)
        if lastChar = some ']' ∨ lastChar = some ' ' then .jiraExpand term
        else escapeOrLiteral line ch today
    else escapeOrLiteral line ch today
  | none => escapeOrLiteral line ch today

/-- src/main.ts lines 569-590: the date phase of `handleFileRename`.  The
regexes are non-global: only the first match of a pattern is examined, and a
pattern whose first match is escaped is skipped entirely. -/
def nameDatePhase (name today : List Char) : List Pat → List Char × Bool
  | [] => (name, false)
  | p :: rest =>
    match scanMatches name p with
    | [] => nameDatePhase name today rest
    | s :: _ =>
      if validAt name s then (splice name s p.pat.length today, true)
      else nameDatePhase name today rest

/-- src/main.ts lines 553-566: the escape phase of `handleFileRename`; the
first escape pattern that tests positive has only its first occurrence
rewritten (non-global regex). -/
def nameEscPhase (name today : List Char) : List (Pat × List Char) → List Char × Bool
  | [] => nameDatePhase name today datePatterns
  | (p, r) :: rest =>
    match scanMatches name p with
    | [] => nameEscPhase name today rest
    | s :: _ => (splice name s p.pat.length r, true)

/-- src/main.ts lines 548-600, `handleFileRename` applied to a file name:
returns the rewritten name and whether a replacement happened. -/
def handleFileRename (name today : List Char) : List Char × Bool :=
  nameEscPhase name today escapePatterns

/-- Decimal rendering of a natural number, as JS `String(n)` produces for the
non-negative numbers the date formatter feeds it.  Fuelled structural
recursion; `n + 1` fuel always suffices. -/
def decStrGo : Nat → Nat → List Char → List Char
  | 0, _, acc => acc
  | fuel + 1, n, acc =>
    let acc2 := Char.ofNat (48 + n % 10) :: acc
    if n < 10 then acc2 else decStrGo fuel (n / 10) acc2

/-- Decimal string of `n`. -/
def decStr (n : Nat) : List Char := decStrGo (n + 1) n []

/-- `String.prototype.padStart(2, '0')`. -/
def padStart2 (s : List Char) : List Char :=
  if s.length < 2 then List.replicate (2 - s.length) '0' ++ s else s

/-- src/main.ts lines 602-620, `formatDate`: `month` and `day` are the
already-adjusted calendar values (`getMonth() + 1`, `getDate()`), zero-padded
to two characters; the year is rendered without padding.  Unrecognized format
strings fall through to the default `YYYY-MM-DD` arm. -/
def formatDate (dateFormat : String) (year month day : Nat) : List Char :=
  let y := decStr year
  let m := padStart2 (decStr month)
  let d := padStart2 (decStr day)
  if dateFormat = "MM-DD-YYYY" then m ++ '-' :: d ++ '-' :: y
  else if dateFormat = "DD-MM-YYYY" then d ++ '-' :: m ++ '-' :: y
  else if dateFormat = "MM/DD/YYYY" then m ++ '/' :: d ++ '/' :: y
  else if dateFormat = "DD/MM/YYYY" then d ++ '/' :: m ++ '/' :: y
  else y ++ '-' :: m ++ '-' :: d

/-- An issue as returned by the external lookup collaborator. -/
structure JiraIssue where
  key : List Char
  summary : List Char
deriving DecidableEq

/-- Outcome of the awaited external lookup. -/
inductive LookupResult where
  | success (issues : List JiraIssue)
  | failure
deriving DecidableEq

/-- The transient notices `expandJiraLink` can surface. -/
inductive NoticeMsg where
  | noResults
  | lookupError
deriving DecidableEq

/-- First position where `sub` occurs in `line` (fuelled scan), as JS
`String.prototype.replace` with a string search argument locates it. -/
def indexOfFrom (line sub : List Char) : Nat → Nat → Option Nat
  | 0, _ => none
  | fuel + 1, i =>
    if sliceEq line i sub then some i
    else if i < line.length then indexOfFrom line sub fuel (i + 1)
    else none

/-- Replace the first occurrence of `sub` in `line` by `repl`. -/
def replaceFirstSub (line sub repl : List Char) : List Char :=
  match indexOfFrom line sub (line.length + 1) 0 with
  | some i => splice line i sub.length repl
  | none => line

/-- The searching marker `[[JIRA:<term> (searching...)]]`. -/
def markerText (term : List Char) : List Char :=
  jiraHead ++ term ++ " (searching...)]]".toList

/-- The resolved token `[[JIRA:<key> - <summary>]]`. -/
def resolvedText (iss : JiraIssue) : List Char :=
  jiraHead ++ iss.key ++ " - ".toList ++ iss.summary ++ "]]".toList

/-- Case-insensitive key comparison, as `key.toLowerCase() === term.toLowerCase()`
via `i.key.toLowerCase() === searchTerm.toLowerCase()` in src/main.ts line 407. -/
def lowerEq (a b : List Char) : Bool :=
  a.map Char.toLower == b.map Char.toLower

/-- src/main.ts lines 395-422, `expandJiraLink`, for the single-threaded run
with no interleaving edit: `line` is the captured pre-marker text, `matched`
the matched token text `match[0]`, `term` the trimmed search term.  First the
marker replaces the token (the editor then holds `loading`); the awaited
lookup outcome decides the final line and notice.  On zero results the line
is set back to the captured `line`; on failure the catch block re-reads the
current line (the marker) and writes it back, so the marker stays. -/
def expandJiraLink (line matched term : List Char) (res : LookupResult) :
    List Char × Option NoticeMsg :=
  let loading := replaceFirstSub line matched (markerText term)
  match res with
  | .success [] => (line, some .noResults)
  | .success (i0 :: rest) =>
    let issue := ((i0 :: rest).find? (fun i => lowerEq i.key term)).getD i0
    (replaceFirstSub line matched (resolvedText issue), none)
  | .failure => (loading, some .lookupError)

/-! ### Scanner facts -/

theorem sliceEq_eq {line : List Char} {i : Nat} {pat : List Char}
    (h : sliceEq line i pat = true) : (line.drop i).take pat.length = pat := by
  simpa [sliceEq] using h

theorem matchesAt_bound {line : List Char} {i : Nat} {p : Pat}
    (hp : 1 ≤ p.pat.length) (h : matchesAt line i p = true) :
    i + p.pat.length ≤ line.length := by
  simp only [matchesAt, Bool.and_eq_true] at h
  have hs := sliceEq_eq h.1.1
  have hlen : ((line.drop i).take p.pat.length).length = p.pat.length := by rw [hs]
  simp only [List.length_take, List.length_drop] at hlen
  omega

theorem scanFrom_mem {line : List Char} {p : Pat} :
    ∀ {fuel i j : Nat}, j ∈ scanFrom line p fuel i → matchesAt line j p = true ∧ i ≤ j := by
  intro fuel
  induction fuel with
  | zero => intro i j h; simp [scanFrom] at h
  | succ n ih =>
    intro i j h
    rw [scanFrom] at h
    by_cases hm : matchesAt line i p = true
    · rw [if_pos hm] at h
      rcases List.mem_cons.mp h with rfl | h2
      · exact ⟨hm, le_refl _⟩
      · obtain ⟨h3, h4⟩ := ih h2
        exact ⟨h3, by omega⟩
    · rw [if_neg hm] at h
      by_cases hi : i < line.length
      · rw [if_pos hi] at h
        obtain ⟨h3, h4⟩ := ih h
        exact ⟨h3, by omega⟩
      · rw [if_neg hi] at h
        simp at h

theorem scanFrom_pairwise {line : List Char} {p : Pat} :
    ∀ {fuel i : Nat},
      (scanFrom line p fuel i).Pairwise (fun a b => a + p.pat.length ≤ b) := by
  intro fuel
  induction fuel with
  | zero => intro i; simp [scanFrom]
  | succ n ih =>
    intro i
    rw [scanFrom]
    by_cases hm : matchesAt line i p = true
    · rw [if_pos hm]
      refine List.pairwise_cons.mpr ⟨?_, ih⟩
      intro b hb
      exact (scanFrom_mem hb).2
    · rw [if_neg hm]
      by_cases hi : i < line.length
      · rw [if_pos hi]; exact ih
      · rw [if_neg hi]; simp

theorem scanMatches_mem {line : List Char} {p : Pat} {j : Nat}
    (h : j ∈ scanMatches line p) : matchesAt line j p = true :=
  (scanFrom_mem h).1

theorem scanMatches_bound {line : List Char} {p : Pat} {j : Nat}
    (hp : 1 ≤ p.pat.length) (h : j ∈ scanMatches line p) :
    j + p.pat.length ≤ line.length :=
  matchesAt_bound hp (scanMatches_mem h)

theorem scanMatches_pairwise (line : List Char) (p : Pat) :
    (scanMatches line p).Pairwise (fun a b => a + p.pat.length ≤ b) :=
  scanFrom_pairwise

theorem validMatches_pairwise (line : List Char) (p : Pat) :
    (validMatches line p).Pairwise (fun a b => a + p.pat.length ≤ b) :=
  List.Pairwise.sublist (List.filter_sublist _) (scanMatches_pairwise line p)

theorem validMatches_bound {line : List Char} {p : Pat} {j : Nat}
    (hp : 1 ≤ p.pat.length) (h : j ∈ validMatches line p) :
    j + p.pat.length ≤ line.length :=
  scanMatches_bound hp (List.Sublist.mem h (List.filter_sublist _))

/-! ### Splice and replacement facts -/

theorem splice_length {l : List Char} {s len : Nat} (r : List Char)
    (h : s + len ≤ l.length) :
    (splice l s len r).length + len = l.length + r.length := by
  simp only [splice, List.length_append, List.length_take, List.length_drop]
  omega

theorem sepChainBound {len n : Nat} :
    ∀ {L : List Nat} {c : Nat}, L.Pairwise (fun a b => a + len ≤ b) →
      (∀ j ∈ L, j + len ≤ n) → (∀ j ∈ L, c ≤ j) → L ≠ [] →
      c + L.length * len ≤ n := by
  intro L
  induction L with
  | nil => intro c _ _ _ hne; exact absurd rfl hne
  | cons j L2 ih =>
    intro c hp hb hc _
    rcases List.pairwise_cons.mp hp with ⟨hj, hp2⟩
    have hcj : c ≤ j := hc j (by simp)
    by_cases h2 : L2 = []
    · subst h2
      have := hb j (by simp)
      simp only [List.length_cons, List.length_nil]
      omega
    · have hrec := ih hp2 (fun x hx => hb x (by simp [hx])) (fun x hx => hj x hx) h2
      rw [List.length_cons, Nat.succ_mul]
      omega

theorem applyRL_length {line : List Char} {len : Nat} (r : List Char) :
    ∀ {L : List Nat}, L.Pairwise (fun a b => a + len ≤ b) →
      (∀ j ∈ L, j + len ≤ line.length) →
      (applyRL line len r L).length + L.length * len =
        line.length + L.length * r.length := by
  intro L
  induction L with
  | nil => simp [applyRL]
  | cons s L2 ih =>
    intro hp hb
    rcases List.pairwise_cons.mp hp with ⟨hs, hp2⟩
    have ihh := ih hp2 (fun x hx => hb x (List.mem_cons_of_mem _ hx))
    have hsb : s + len ≤ (applyRL line len r L2).length := by
      by_cases h2 : L2 = []
      · subst h2
        simpa [applyRL] using hb s (by simp)
      · have hchain := sepChainBound hp2
          (fun x hx => hb x (List.mem_cons_of_mem _ hx)) (fun x hx => hs x hx) h2
        omega
    have hsp := splice_length r hsb
    rw [applyRL, List.length_cons, Nat.succ_mul, Nat.succ_mul]
    omega

theorem cursorAdj_formula {ch replLen patLen s : Nat} {L2 : List Nat}
    (hs1 : s < ch) (hs2 : ch < s + patLen) :
    ∀ L1 : List Nat, (∀ x ∈ L1, x + patLen ≤ s) →
      cursorAdj ch replLen patLen (L1 ++ s :: L2) =
        ((s : Int) + replLen - ch) +
          L1.length * ((replLen : Int) - (patLen : Int)) := by
  intro L1
  induction L1 with
  | nil =>
    intro _
    rw [List.nil_append, cursorAdj, if_pos ⟨by omega, by omega⟩]
    simp
  | cons x L1x ih =>
    intro hx
    have hxs : x + patLen ≤ s := hx x (by simp)
    rw [List.cons_append, cursorAdj,
      if_neg (by omega : ¬(x ≤ ch ∧ ch ≤ x + patLen)),
      if_pos (by omega : x < ch),
      ih (fun y hy => hx y (by simp [hy]))]
    push_cast [List.length_cons]
    ring

/-! ### Pass-selection facts -/

theorem isEmpty_false_of_ne {A : Type} {l : List A} (h : l ≠ []) : l.isEmpty = false := by
  cases l with
  | nil => exact absurd rfl h
  | cons a t => rfl

theorem literalFirst_skip {line : List Char} {ch : Nat} {today : List Char} {p : Pat}
    {rest : List Pat} (h : validMatches line p = []) :
    literalFirst line ch today (p :: rest) = literalFirst line ch today rest := by
  rw [validMatches] at h
  simp [literalFirst, h]

theorem literalFirst_hit {line : List Char} {ch : Nat} {today : List Char} {p : Pat}
    {rest : List Pat} {L : List Nat} (h : validMatches line p = L) (hne : L ≠ []) :
    literalFirst line ch today (p :: rest) =
      some (applyRL line p.pat.length today L,
        (max 0 ((ch : Int) + cursorAdj ch today.length p.pat.length L)).toNat) := by
  rw [validMatches] at h
  have hne2 : scanMatches line p ≠ [] := by
    intro hx
    rw [hx] at h
    exact hne (by simpa using h.symm)
  have hv : ((scanMatches line p).filter (validAt line)).isEmpty = false := by
    rw [h]
    exact isEmpty_false_of_ne hne
  simp [literalFirst, isEmpty_false_of_ne hne2, hv, h]
  intro hx
  exact absurd hx hne

theorem escapeFirst_skip {line : List Char} {p : Pat} {r : List Char}
    {rest : List (Pat × List Char)} (h : scanMatches line p = []) :
    escapeFirst line ((p, r) :: rest) = escapeFirst line rest := by
  simp [escapeFirst, h]

theorem escapeFirst_hit {line : List Char} {p : Pat} {r : List Char}
    {rest : List (Pat × List Char)} (h : scanMatches line p ≠ []) :
    escapeFirst line ((p, r) :: rest) =
      some (applyRL line p.pat.length r (scanMatches line p)) := by
  simp [escapeFirst, isEmpty_false_of_ne h]

theorem handleEditorChange_noJira (line : List Char) (ch : Nat) (today : List Char) :
    handleEditorChange false line ch today = escapeOrLiteral line ch today := rfl

theorem escapeOrLiteral_ne_jiraExpand (line : List Char) (ch : Nat) (today t : List Char) :
    escapeOrLiteral line ch today ≠ .jiraExpand t := by
  rw [escapeOrLiteral]
  cases h1 : escapeFirst line escapePatterns with
  | some nl => simp
  | none =>
    cases h2 : literalFirst line ch today datePatterns with
    | some pr => cases pr with | mk nl c => simp
    | none => simp

/-! ### Name-rewriter facts -/

theorem nameDatePhase_spec (name today : List Char) :
    ∀ ps : List Pat, (∀ p ∈ ps, 1 ≤ p.pat.length) →
      ((nameDatePhase name today ps).2 = false →
        (nameDatePhase name today ps).1 = name) ∧
      ((nameDatePhase name today ps).2 = true → ∃ s len r, s + len ≤ name.length ∧
        (nameDatePhase name today ps).1 = name.take s ++ r ++ name.drop (s + len)) := by
  intro ps
  induction ps with
  | nil => intro _; simp [nameDatePhase]
  | cons p rest ih =>
    intro hps
    have ihr := ih (fun q hq => hps q (List.mem_cons_of_mem _ hq))
    rcases hm : scanMatches name p with _ | ⟨s, tail⟩
    · simpa only [nameDatePhase, hm] using ihr
    · by_cases hv : validAt name s = true
      · have hb : s + p.pat.length ≤ name.length :=
          scanMatches_bound (hps p (by simp)) (by rw [hm]; simp)
        simp only [nameDatePhase, hm, hv, if_true]
        refine ⟨fun hcon => by simp at hcon, fun _ => ⟨s, p.pat.length, today, hb, rfl⟩⟩
      · simpa only [nameDatePhase, hm, hv, if_false] using ihr

theorem nameEscPhase_spec (name today : List Char) :
    ∀ ps : List (Pat × List Char), (∀ q ∈ ps, 1 ≤ q.1.pat.length) →
      ((nameEscPhase name today ps).2 = false →
        (nameEscPhase name today ps).1 = name) ∧
      ((nameEscPhase name today ps).2 = true → ∃ s len r, s + len ≤ name.length ∧
        (nameEscPhase name today ps).1 = name.take s ++ r ++ name.drop (s + len)) := by
  intro ps
  induction ps with
  | nil =>
    intro _
    have hd := nameDatePhase_spec name today datePatterns (by decide)
    simpa only [nameEscPhase] using hd
  | cons q rest ih =>
    intro hps
    have ihr := ih (fun x hx => hps x (List.mem_cons_of_mem _ hx))
    rcases q with ⟨p, r⟩
    rcases hm : scanMatches name p with _ | ⟨s, tail⟩
    · simpa only [nameEscPhase, hm] using ihr
    · have hb : s + p.pat.length ≤ name.length :=
        scanMatches_bound (hps (p, r) (by simp)) (by rw [hm]; simp)
      simp only [nameEscPhase, hm]
      exact ⟨fun hcon => by simp at hcon, fun _ => ⟨s, p.pat.length, r, hb, rfl⟩⟩

/-! ### Date-formatter facts -/

theorem decStrGo_base {n fuel : Nat} {acc : List Char} (h : n < 10) :
    decStrGo (fuel + 1) n acc = Char.ofNat (48 + n % 10) :: acc := by
  simp [decStrGo, h]

theorem decStrGo_step {n fuel : Nat} {acc : List Char} (h : ¬ n < 10) :
    decStrGo (fuel + 1) n acc = decStrGo fuel (n / 10) (Char.ofNat (48 + n % 10) :: acc) := by
  simp [decStrGo, h]

theorem decStr_len_le_two {m : Nat} (h : m < 100) : (decStr m).length ≤ 2 := by
  rw [decStr]
  by_cases h1 : m < 10
  · rw [decStrGo_base h1]; simp
  · rw [decStrGo_step h1]
    obtain ⟨k, rfl⟩ : ∃ k, m = k + 1 := ⟨m - 1, by omega⟩
    rw [decStrGo_base (by omega : (k + 1) / 10 < 10)]
    simp

theorem decStr_len_four {y : Nat} (h1 : 1000 ≤ y) (h2 : y < 10000) :
    (decStr y).length = 4 := by
  rw [decStr, decStrGo_step (by omega)]
  obtain ⟨k, rfl⟩ : ∃ k, y = k + 1 := ⟨y - 1, by omega⟩
  rw [decStrGo_step (by omega : ¬ (k + 1) / 10 < 10)]
  obtain ⟨j, rfl⟩ : ∃ j, k = j + 1 := ⟨k - 1, by omega⟩
  rw [decStrGo_step (by omega : ¬ (j + 1 + 1) / 10 / 10 < 10)]
  obtain ⟨i, rfl⟩ : ∃ i, j = i + 1 := ⟨j - 1, by omega⟩
  rw [decStrGo_base (by omega : (i + 1 + 1 + 1) / 10 / 10 / 10 < 10)]
  simp

theorem padStart2_length (s : List Char) : (padStart2 s).length = max 2 s.length := by
  rw [padStart2]
  by_cases h : s.length < 2
  · rw [if_pos h]; simp; omega
  · rw [if_neg h]; omega

theorem escapeOrLiteral_literal {line : List Char} {ch : Nat} {today nl : List Char}
    {c : Nat} (hesc : escapeFirst line escapePatterns = none)
    (hlit : literalFirst line ch today datePatterns = some (nl, c)) :
    escapeOrLiteral line ch today = .literalEdit nl c := by
  unfold escapeOrLiteral
  rw [hesc, hlit]

theorem escapeOrLiteral_escape {line : List Char} {ch : Nat} {today nl : List Char}
    (hesc : escapeFirst line escapePatterns = some nl) :
    escapeOrLiteral line ch today = .escapeEdit nl (ch - 1) := by
  unfold escapeOrLiteral
  rw [hesc]

theorem literalFirst_select {line : List Char} {ch : Nat} {today : List Char}
    {k : Fin 3} {L : List Nat}
    (hprev : ∀ j : Fin 3, j < k → validMatches line (datePat j) = [])
    (hk : validMatches line (datePat k) = L) (hne : L ≠ []) :
    literalFirst line ch today datePatterns =
      some (applyRL line (datePat k).pat.length today L,
        (max 0 ((ch : Int) + cursorAdj ch today.length (datePat k).pat.length L)).toNat) := by
  fin_cases k
  · exact literalFirst_hit hk hne
  · rw [show datePatterns = braceCallPat :: [bareCallPat, atTagPat] from rfl,
      literalFirst_skip (show validMatches line braceCallPat = [] from
        hprev 0 (by decide))]
    exact literalFirst_hit hk hne
  · rw [show datePatterns = braceCallPat :: [bareCallPat, atTagPat] from rfl,
      literalFirst_skip (show validMatches line braceCallPat = [] from
        hprev 0 (by decide)),
      literalFirst_skip (show validMatches line bareCallPat = [] from
        hprev 1 (by decide))]
    exact literalFirst_hit hk hne

theorem escapeFirst_select {line : List Char} {k : Fin 3} {L : List Nat}
    (hprev : ∀ j : Fin 3, j < k → scanMatches line (escPat j).1 = [])
    (hk : scanMatches line (escPat k).1 = L) (hne : L ≠ []) :
    escapeFirst line escapePatterns =
      some (applyRL line (escPat k).1.pat.length (escPat k).2 L) := by
  have hne2 : scanMatches line (escPat k).1 ≠ [] := by rw [hk]; exact hne
  fin_cases k
  · rw [show escapePatterns =
      (escBracePat, braceCallPat.pat) ::
        [(escBarePat, bareCallPat.pat), (escAtPat, atTagPat.pat)] from rfl,
      escapeFirst_hit (show scanMatches line escBracePat ≠ [] from hne2),
      show scanMatches line escBracePat = L from hk]
    rfl
  · rw [show escapePatterns =
      (escBracePat, braceCallPat.pat) ::
        [(escBarePat, bareCallPat.pat), (escAtPat, atTagPat.pat)] from rfl,
      escapeFirst_skip (show scanMatches line escBracePat = [] from
        hprev 0 (by decide)),
      escapeFirst_hit (show scanMatches line escBarePat ≠ [] from hne2),
      show scanMatches line escBarePat = L from hk]
    rfl
  · rw [show escapePatterns =
      (escBracePat, braceCallPat.pat) ::
        [(escBarePat, bareCallPat.pat), (escAtPat, atTagPat.pat)] from rfl,
      escapeFirst_skip (show scanMatches line escBracePat = [] from
        hprev 0 (by decide)),
      escapeFirst_skip (show scanMatches line escBarePat = [] from
        hprev 1 (by decide)),
      escapeFirst_hit (show scanMatches line escAtPat ≠ [] from hne2),
      show scanMatches line escAtPat = L from hk]
    rfl

/-! ### The claims -/

/-- C1: per edit event at most one trigger kind's literal replacement is
applied: when the escape pass finds nothing (and no lookup client is
configured), the first date pattern in priority order (BraceCall, BareCall,
AtTag) whose valid-occurrence list `L` is nonempty has all of `L` replaced
right-to-left by the formatted date, and no other pattern is touched —
concretely, a line holding both a valid `@today` and a valid brace call
resolves only the brace call and leaves `@today` intact. -/
theorem c1_literal_priority_replaces_all (line : List Char) (ch : Nat)
    (today : List Char) (k : Fin 3) (L : List Nat)
    (hesc : escapeFirst line escapePatterns = none)
    (hprev : ∀ j : Fin 3, j < k → validMatches line (datePat j) = [])
    (hk : validMatches line (datePat k) = L) (hne : L ≠ []) :
    (∃ c, handleEditorChange false line ch today =
      .literalEdit (applyRL line (datePat k).pat.length today L) c) ∧
    handleEditorChange false "@today \x7b\x7btoday()\x7d\x7d".toList 0
        "2025-09-01".toList =
      .literalEdit "@today 2025-09-01".toList 0 := by
  constructor
  · rw [handleEditorChange_noJira]
    exact ⟨_, escapeOrLiteral_literal hesc (literalFirst_select hprev hk hne)⟩
  · decide

/-- C1 witness: on the line `@today` the third pattern wins with its single
valid occurrence. -/
theorem c1_witness :
    (escapeFirst "@today".toList escapePatterns = none) ∧
    validMatches "@today".toList (datePat 2) = [0] ∧
    ∃ c, handleEditorChange false "@today".toList 3 "2025-09-01".toList =
      .literalEdit
        (applyRL "@today".toList (datePat 2).pat.length "2025-09-01".toList [0]) c :=
  ⟨by decide, by decide,
    (c1_literal_priority_replaces_all "@today".toList 3 "2025-09-01".toList 2 [0]
      (by decide) (by decide) (by decide) (by decide)).1⟩

/-- C3 counterexample: on `\@today \@today` the escape pass strips BOTH
backslashes (the escape regexes are global), not exactly one as claimed. -/
theorem c3_counterexample :
    handleEditorChange false "\\@today \\@today".toList 15 "2025-09-01".toList =
      .escapeEdit "@today @today".toList 14 ∧
    "@today @today".toList ≠ "@today \\@today".toList ∧
    "@today @today".toList ≠ "\\@today @today".toList := by decide

/-- C3 (amended): when the first escape pattern (priority order BraceCall,
BareCall, AtTag) with a match wins, the event terminates with every
occurrence of that pattern unescaped — one backslash removed per occurrence,
so the line shrinks by exactly the occurrence count — and the cursor becomes
`max(0, ch - 1)`; no literal replacement happens that event. -/
theorem c3_escape_strips_every_occurrence (line : List Char) (ch : Nat)
    (today : List Char) (k : Fin 3) (L : List Nat)
    (hprev : ∀ j : Fin 3, j < k → scanMatches line (escPat j).1 = [])
    (hk : scanMatches line (escPat k).1 = L) (hne : L ≠ []) :
    handleEditorChange false line ch today =
      .escapeEdit (applyRL line (escPat k).1.pat.length (escPat k).2 L) (ch - 1) ∧
    (applyRL line (escPat k).1.pat.length (escPat k).2 L).length + L.length =
      line.length := by
  constructor
  · rw [handleEditorChange_noJira]
    exact escapeOrLiteral_escape (escapeFirst_select hprev hk hne)
  · have hpair : L.Pairwise (fun a b => a + (escPat k).1.pat.length ≤ b) := by
      rw [← hk]; exact scanMatches_pairwise line _
    have hone : 1 ≤ (escPat k).1.pat.length := by fin_cases k <;> decide
    have hbound : ∀ j ∈ L, j + (escPat k).1.pat.length ≤ line.length := by
      intro j hj
      rw [← hk] at hj
      exact scanMatches_bound hone hj
    have happ := applyRL_length (escPat k).2 hpair hbound
    have hlen1 : (escPat k).1.pat.length = (escPat k).2.length + 1 := by
      fin_cases k <;> decide
    have hx : L.length * (escPat k).1.pat.length =
        L.length * (escPat k).2.length + L.length := by
      rw [hlen1, Nat.mul_add, Nat.mul_one]
    omega

/-- C3 witness: both escaped `@today` occurrences of `\@today \@today` are
stripped and the line shrinks by 2. -/
theorem c3_witness :
    scanMatches "\\@today \\@today".toList (escPat 2).1 = [0, 8] ∧
    handleEditorChange false "\\@today \\@today".toList 15 "2025-09-01".toList =
      .escapeEdit
        (applyRL "\\@today \\@today".toList (escPat 2).1.pat.length (escPat 2).2
          [0, 8]) 14 :=
  ⟨by decide,
    (c3_escape_strips_every_occurrence "\\@today \\@today".toList 15
      "2025-09-01".toList 2 [0, 8] (by decide) (by decide) (by decide)).1⟩

/-- C5 counterexample: on `@today @today` with the cursor strictly inside the
second occurrence (offset 8), the code puts the cursor at 21, not at
`matchStart + length(replacement) = 7 + 10 = 17` as the claim states — the
replacement of the earlier occurrence shifts it further. -/
theorem c5_counterexample :
    handleEditorChange false "@today @today".toList 8 "2025-09-01".toList =
      .literalEdit "2025-09-01 2025-09-01".toList 21 ∧
    (21 : Nat) ≠ 7 + 10 := by decide

/-- C5 (amended): if the cursor lies strictly inside the span of a replaced
occurrence at `s`, the new cursor is `s + length(replacement)` shifted by
`(replacement length - match length)` for each valid occurrence strictly
before `s` (and clamped at 0), matching src/main.ts lines 526-541. -/
theorem c5_cursor_inside_replaced_span (line : List Char) (ch : Nat)
    (today : List Char) (k : Fin 3) (L1 L2 : List Nat) (s : Nat)
    (hesc : escapeFirst line escapePatterns = none)
    (hprev : ∀ j : Fin 3, j < k → validMatches line (datePat j) = [])
    (hk : validMatches line (datePat k) = L1 ++ s :: L2)
    (hs1 : s < ch) (hs2 : ch < s + (datePat k).pat.length) :
    handleEditorChange false line ch today =
      .literalEdit (applyRL line (datePat k).pat.length today (L1 ++ s :: L2))
        ((max 0 ((s : Int) + today.length +
          L1.length *
            ((today.length : Int) - ((datePat k).pat.length : Int)))).toNat) := by
  have hne : L1 ++ s :: L2 ≠ [] := by simp
  have hp := validMatches_pairwise line (datePat k)
  rw [hk] at hp
  rcases List.pairwise_append.mp hp with ⟨hp1, hp2, hp12⟩
  have hL1 : ∀ x ∈ L1, x + (datePat k).pat.length ≤ s :=
    fun x hx => hp12 x hx s (by simp)
  have hadj := @cursorAdj_formula ch today.length (datePat k).pat.length s L2
    hs1 hs2 L1 hL1
  rw [handleEditorChange_noJira,
    escapeOrLiteral_literal hesc (literalFirst_select hprev hk hne)]
  congr 2
  rw [hadj]
  ring_nf

/-- C5 witness: on `@today @today` with cursor 8, strictly inside the second
occurrence (start 7), the amended formula gives cursor 21. -/
theorem c5_witness :
    validMatches "@today @today".toList (datePat 2) = [0] ++ 7 :: [] ∧
    handleEditorChange false "@today @today".toList 8 "2025-09-01".toList =
      .literalEdit
        (applyRL "@today @today".toList (datePat 2).pat.length
          "2025-09-01".toList ([0] ++ 7 :: []))
        ((max 0 ((7 : Int) + ("2025-09-01".toList).length +
          ([0] : List Nat).length *
            ((("2025-09-01".toList).length : Int) -
              (((datePat 2).pat.length : Nat) : Int)))).toNat) :=
  ⟨by decide,
    c5_cursor_inside_replaced_span "@today @today".toList 8 "2025-09-01".toList 2
      [0] [] 7 (by decide) (by decide) (by decide) (by decide) (by decide)⟩

/-- C6 counterexample: `\@today @today` contains exactly one valid, unescaped
occurrence of the AtTag trigger (offset 8), yet the event performs the escape
rewrite instead of replacing that occurrence with the date. -/
theorem c6_counterexample :
    validMatches "\\@today @today".toList atTagPat = [8] ∧
    handleEditorChange false "\\@today @today".toList 14 "2025-09-01".toList =
      .escapeEdit "@today @today".toList 13 ∧
    "@today @today".toList ≠
      ("\\@today ".toList ++ "2025-09-01".toList) := by decide

/-- C6 (amended): for every literal trigger T, a line whose only valid
occurrence of T is at `s`, on which no escape pattern matches and no
higher-priority trigger has a valid occurrence (and with no lookup client),
is rewritten to the same line with exactly that occurrence replaced by the
formatted date — all other characters are unchanged. -/
theorem c6_single_valid_occurrence_replaced (line : List Char) (ch : Nat)
    (fmt : String) (y m d : Nat) (k : Fin 3) (s : Nat)
    (hesc : escapeFirst line escapePatterns = none)
    (hprev : ∀ j : Fin 3, j < k → validMatches line (datePat j) = [])
    (hk : validMatches line (datePat k) = [s]) :
    ∃ c, handleEditorChange false line ch (formatDate fmt y m d) =
      .literalEdit
        (line.take s ++ formatDate fmt y m d ++
          line.drop (s + (datePat k).pat.length)) c := by
  rw [handleEditorChange_noJira]
  exact ⟨_, escapeOrLiteral_literal hesc (literalFirst_select hprev hk (by simp))⟩

/-- C6 witness: `x @today` has its single valid AtTag occurrence replaced by
the formatted date. -/
theorem c6_witness :
    validMatches "x @today".toList (datePat 2) = [2] ∧
    ∃ c, handleEditorChange false "x @today".toList 0
        (formatDate "YYYY-MM-DD" 2025 9 1) =
      .literalEdit
        (("x @today".toList).take 2 ++ formatDate "YYYY-MM-DD" 2025 9 1 ++
          ("x @today".toList).drop (2 + (datePat 2).pat.length)) c :=
  ⟨by decide,
    c6_single_valid_occurrence_replaced "x @today".toList 0 "YYYY-MM-DD" 2025 9 1 2 2
      (by decide) (by decide) (by decide)⟩

/-- C2 counterexample: `\@today [[JIRA:x]]` contains an escaped AtTag
occurrence, yet with the cursor at the end of the bracket token the event
invokes the lookup expansion (the lookup pass runs before the escape pass)
and the escape is not processed. -/
theorem c2_counterexample :
    handleEditorChange true "\\@today [[JIRA:x]]".toList 18 "2025-09-01".toList =
      .jiraExpand "x".toList ∧
    scanMatches "\\@today [[JIRA:x]]".toList escAtPat ≠ [] := by decide

/-- C2 (amended): the lookup-expansion pass runs BEFORE the escape pass: on
every line whose first BracketLookup match contains the cursor, whose payload
is not an already-resolved ticket reference and whose cursor is preceded by
`]` or a space, the AsyncExpander lookup is invoked and the event terminates
without any escape processing, even when an escaped literal trigger is
present. -/
theorem c2_lookup_pass_runs_first (line : List Char) (ch : Nat)
    (today : List Char) (s len : Nat)
    (hm : firstJiraMatch line = some (s, len))
    (hin : s ≤ ch ∧ ch ≤ s + len)
    (ht : isTicketForm (jiraTerm line s len) = false)
    (hch : ch ≠ 0)
    (hlast : line.get? (ch - 1) = some ']' ∨ line.get? (ch - 1) = some ' ') :
    handleEditorChange true line ch today = .jiraExpand (jiraTerm line s len) := by
  rcases hlast with h | h <;> rw [List.get?_eq_getElem?] at h <;>
    simp [handleEditorChange, hm, hin.1, hin.2, ht, hch, h]

/-- C2 witness: the counterexample line satisfies all lookup preconditions
and the event resolves to the lookup expansion. -/
theorem c2_witness :
    firstJiraMatch "\\@today [[JIRA:x]]".toList = some (8, 10) ∧
    handleEditorChange true "\\@today [[JIRA:x]]".toList 18 "2025-09-01".toList =
      .jiraExpand (jiraTerm "\\@today [[JIRA:x]]".toList 8 10) :=
  ⟨by decide,
    c2_lookup_pass_runs_first "\\@today [[JIRA:x]]".toList 18 "2025-09-01".toList 8 10
      (by decide) (by decide) (by decide) (by decide) (by decide)⟩

/-- C10: when the line has a BracketLookup match but the cursor offset lies
outside the span `[matchStart, matchEnd]` of the first match, no expansion is
started: the event is exactly the escape-or-literal processing, which never
yields a lookup invocation. -/
theorem c10_no_expansion_outside_span (jiraEnabled : Bool) (line : List Char)
    (ch : Nat) (today : List Char) (s len : Nat)
    (hm : firstJiraMatch line = some (s, len))
    (hout : ¬(s ≤ ch ∧ ch ≤ s + len)) :
    handleEditorChange jiraEnabled line ch today = escapeOrLiteral line ch today ∧
    ∀ t, handleEditorChange jiraEnabled line ch today ≠ .jiraExpand t := by
  have h1 : handleEditorChange jiraEnabled line ch today =
      escapeOrLiteral line ch today := by
    cases jiraEnabled
    · rfl
    · simp [handleEditorChange, hm, hout]
  exact ⟨h1, fun t => h1 ▸ escapeOrLiteral_ne_jiraExpand line ch today t⟩

/-- C10 witness: on `[[JIRA:x]] a` with cursor 12 (outside the match span
`[0, 10]`) nothing is expanded. -/
theorem c10_witness :
    firstJiraMatch "[[JIRA:x]] a".toList = some (0, 10) ∧
    handleEditorChange true "[[JIRA:x]] a".toList 12 "2025-09-01".toList =
      escapeOrLiteral "[[JIRA:x]] a".toList 12 "2025-09-01".toList :=
  ⟨by decide,
    (c10_no_expansion_outside_span true "[[JIRA:x]] a".toList 12
      "2025-09-01".toList 0 10 (by decide) (by decide)).1⟩

/-- C8: NameRewriter shares the trigger tables and the escape-first phase
order with LineRewriter but performs at most a single splice: an unchanged
flag means the name is returned verbatim, a changed flag means exactly one
occurrence was replaced (everything before and after it is untouched) — and
the spec example name with two brace-call occurrences gets exactly one of
them replaced. -/
theorem c8_name_rewriter_first_occurrence_only (name today : List Char) :
    ((handleFileRename name today).2 = false →
      (handleFileRename name today).1 = name) ∧
    ((handleFileRename name today).2 = true → ∃ s len r, s + len ≤ name.length ∧
      (handleFileRename name today).1 =
        name.take s ++ r ++ name.drop (s + len)) ∧
    handleFileRename
        "a \x7b\x7btoday()\x7d\x7d b \x7b\x7btoday()\x7d\x7d c.md".toList
        "2025-09-01".toList =
      ("a 2025-09-01 b \x7b\x7btoday()\x7d\x7d c.md".toList, true) := by
  have h := nameEscPhase_spec name today escapePatterns (by decide)
  exact ⟨h.1, h.2, by decide⟩

/-- C8 witness: `x @today` is renamed with a single splice. -/
theorem c8_witness :
    (handleFileRename "x @today".toList "2025-09-01".toList).2 = true ∧
    ∃ s len r, s + len ≤ ("x @today".toList).length ∧
      (handleFileRename "x @today".toList "2025-09-01".toList).1 =
        ("x @today".toList).take s ++ r ++ ("x @today".toList).drop (s + len) :=
  ⟨by decide,
    (c8_name_rewriter_first_occurrence_only "x @today".toList
      "2025-09-01".toList).2.1 (by decide)⟩

/-- C9 counterexample: for the instant with year 999 the year field is NOT a
fixed-width 4-digit field: `formatDate` renders `999-09-01`. -/
theorem c9_counterexample :
    formatDate "YYYY-MM-DD" 999 9 1 = "999-09-01".toList ∧
    (decStr 999).length ≠ 4 := by decide

/-- C9 (amended): each of the five enumerated kinds renders the date in its
arrangement, any other format string falls back to the `YYYY-MM-DD` arm,
month and day are zero-padded to exactly 2 digits (for the calendar range,
i.e. values below 100), and the unpadded year field has 4 digits exactly for
years 1000 to 9999. -/
theorem c9_format_fields (fmt : String) (y m d : Nat) (hm : m < 100)
    (hd : d < 100) :
    formatDate "MM-DD-YYYY" y m d =
        padStart2 (decStr m) ++ '-' :: padStart2 (decStr d) ++ '-' :: decStr y ∧
    formatDate "DD-MM-YYYY" y m d =
        padStart2 (decStr d) ++ '-' :: padStart2 (decStr m) ++ '-' :: decStr y ∧
    formatDate "MM/DD/YYYY" y m d =
        padStart2 (decStr m) ++ '/' :: padStart2 (decStr d) ++ '/' :: decStr y ∧
    formatDate "DD/MM/YYYY" y m d =
        padStart2 (decStr d) ++ '/' :: padStart2 (decStr m) ++ '/' :: decStr y ∧
    formatDate "YYYY-MM-DD" y m d =
        decStr y ++ '-' :: padStart2 (decStr m) ++ '-' :: padStart2 (decStr d) ∧
    (fmt ≠ "MM-DD-YYYY" → fmt ≠ "DD-MM-YYYY" → fmt ≠ "MM/DD/YYYY" →
      fmt ≠ "DD/MM/YYYY" →
      formatDate fmt y m d = formatDate "YYYY-MM-DD" y m d) ∧
    (padStart2 (decStr m)).length = 2 ∧
    (padStart2 (decStr d)).length = 2 ∧
    (1000 ≤ y → y < 10000 → (decStr y).length = 4) := by
  refine ⟨rfl, rfl, rfl, rfl, rfl, ?_, ?_, ?_, fun h1 h2 => decStr_len_four h1 h2⟩
  · intro h1 h2 h3 h4
    have h6 : formatDate "YYYY-MM-DD" y m d =
        decStr y ++ '-' :: padStart2 (decStr m) ++ '-' :: padStart2 (decStr d) :=
      rfl
    rw [h6]
    simp only [formatDate]
    rw [if_neg h1, if_neg h2, if_neg h3, if_neg h4]
  · rw [padStart2_length]
    have := decStr_len_le_two hm
    omega
  · rw [padStart2_length]
    have := decStr_len_le_two hd
    omega

/-- C9 witness: an unrecognized format string on 2025-09-01 falls back to the
default arm, with 2-digit month and day fields and a 4-digit year. -/
theorem c9_witness :
    (padStart2 (decStr 9)).length = 2 ∧ (decStr 2025).length = 4 ∧
    formatDate "bogus" 2025 9 1 = formatDate "YYYY-MM-DD" 2025 9 1 :=
  ⟨(c9_format_fields "bogus" 2025 9 1 (by decide) (by decide)).2.2.2.2.2.2.1,
    (c9_format_fields "bogus" 2025 9 1 (by decide) (by decide)).2.2.2.2.2.2.2.2
      (by decide) (by decide),
    (c9_format_fields "bogus" 2025 9 1 (by decide) (by decide)).2.2.2.2.2.1
      (by decide) (by decide) (by decide) (by decide)⟩

/-- C4: on a lookup failure the catch block of `expandJiraLink` re-reads the
current line — which at that point holds the searching marker — and writes it
back, so the line KEEPS the marker instead of reverting to the pre-marker
text; the error notice is emitted and nothing propagates.  This computes the
code behavior at the failing input of the bug report. -/
theorem c4_error_path_keeps_marker :
    expandJiraLink "[[JIRA:foo]]".toList "[[JIRA:foo]]".toList "foo".toList
        .failure =
      ("[[JIRA:foo (searching...)]]".toList, some .lookupError) ∧
    "[[JIRA:foo (searching...)]]".toList ≠ "[[JIRA:foo]]".toList := by decide

/-- C7: a lookup that returns zero results reverts the line exactly to the
captured pre-marker text and emits the no-results notice. -/
theorem c7_empty_lookup_reverts (line matched term : List Char) :
    expandJiraLink line matched term (.success []) = (line, some .noResults) := rfl

end Obsidian
